import Mathlib

/-!
Verification of the dataset-preparation script `prepare_data.py`
(dataset splitter, image collector, layout builder, COLMAP
reconstruction orchestrator).  Pure shallow embedding: filesystem
enumeration results and external-tool exit statuses are explicit
inputs; the script's logic is translated function by function.
-/

/-- Modelled from the spec: the seeded pseudo-random generator
("seed a pseudo-random generator with the fixed seed") used by
`random.shuffle`; the Python standard-library generator is not part of
this repository, so it is modelled as a deterministic linear
congruential step.  Only determinism and the permutation property of
the shuffle are relied on, never the particular draw sequence. -/
def next_state (g : Nat) : Nat :=
  (g * 1103515245 + 12345) % 2147483648

/-- One Fisher-Yates style pass: draw an index from the generator,
move that element to the front, recurse on the rest.  `fuel` bounds
the recursion structurally; with `fuel = l.length` the whole list is
consumed.  Modelled from the spec: `random.shuffle`'s algorithm is
standard-library code, not repository code. -/
def shuffleFuel {α : Type} : Nat → Nat → List α → List α
  | 0, _, l => l
  | _, _, [] => []
  | fuel + 1, g, x :: xs =>
    let l := x :: xs
    let j := g % l.length
    have hj : j < l.length := Nat.mod_lt g (Nat.succ_pos xs.length)
    l.get ⟨j, hj⟩ :: shuffleFuel fuel (next_state g) (l.take j ++ l.drop (j + 1))

/-- The in-place `random.shuffle(images)` of `split_images`, as a pure
function of the generator seed and the input ordering. -/
def shuffle_model {α : Type} (seed : Nat) (l : List α) : List α :=
  shuffleFuel l.length seed l

/-- ASCII lowercasing of a filename, `str.lower()` restricted to the
ASCII range the recognized extensions use. -/
def str_lower (s : String) : List Char :=
  s.data.map Char.toLower

/-- `str.endswith(suffix)` on character lists. -/
def ends_with (l suf : List Char) : Bool :=
  List.isPrefixOf suf.reverse l.reverse

/-- The filename filter of `split_images` line 26:
`f.lower().endswith(('.png', '.jpg', '.jpeg'))` applied to the
directory listing. -/
def listdir_filter (entries : List String) : List String :=
  entries.filter fun f =>
    ends_with (str_lower f) ".png".data ||
      ends_with (str_lower f) ".jpg".data ||
      ends_with (str_lower f) ".jpeg".data

/-- Result type of `split_images`: the dict with keys
`train`, `val`, `test`. -/
structure SplitResult where
  train : List String
  val : List String
  test : List String
deriving DecidableEq

/-- `split_images(image_dir, train_ratio, val_ratio)` of
`prepare_data.py` lines 25-37, with the directory listing passed
explicitly (`dir_entries` is what `os.listdir(image_dir)` returned)
and the generator seed explicit.  `int(total * ratio)` truncates
toward zero; on the valid (non-negative) ratio domain this is
`Int.toNat ∘ Int.floor`. -/
def split_images (seed : Nat) (dir_entries : List String)
    (train_ratio val_ratio : ℚ) : SplitResult :=
  let images := listdir_filter dir_entries
  let shuffled := shuffle_model seed images
  let total := shuffled.length
  let train_end := (⌊(total : ℚ) * train_ratio⌋).toNat
  let val_len := (⌊(total : ℚ) * val_ratio⌋).toNat
  ⟨shuffled.take train_end,
   (shuffled.drop train_end).take val_len,
   shuffled.drop (train_end + val_len)⟩

/-- Index of the last dot in a character list, `name.rfind('.')`. -/
def last_dot_idx : List Char → Option Nat
  | [] => none
  | c :: cs =>
    match last_dot_idx cs with
    | some i => some (i + 1)
    | none => if c = '.' then some 0 else none

/-- `Path(name).suffix`: the extension of the final path component,
empty unless the last dot sits strictly inside the name
(`0 < i < len(name) - 1` in the CPython implementation). -/
def path_suffix (name : String) : List Char :=
  match last_dot_idx name.data with
  | some i => if 0 < i ∧ i + 1 < name.data.length then name.data.drop i else []
  | none => []

/-- The recognized extension list of `create_colmap_structure` line 63:
`['.png', '.jpg', '.jpeg']`. -/
def image_exts : List (List Char) :=
  [".png".data, ".jpg".data, ".jpeg".data]

/-- The image-copy loop of `create_colmap_structure` lines 62-64: keep
the direct entries of the source directory whose
`img.suffix.lower()` is in `image_exts`; each kept entry is copied to
`input_dir / img.name`, so the copied names are exactly the kept
names. -/
def collect_images (entries : List String) : List String :=
  entries.filter fun img => decide ((path_suffix img).map Char.toLower ∈ image_exts)

/-- Observable outcome of `create_colmap_structure` lines 40-78 in
photo mode, before the COLMAP pipeline: the filenames copied into
`input/`, the computed split, the three list files written at the
root, and the function's return value (`base_dir`, line 78). -/
structure CCSResult where
  copied : List String
  splits : SplitResult
  lists_written : List (String × List String)
  ret : String
deriving DecidableEq

/-- `create_colmap_structure(output_dir, image_source)` lines 40-78 in
photo mode: copy the extension-matching direct entries of the source
directory into `input/` (lines 61-64), split the input listing with
`split_images`'s declared default ratios 0.8 and 0.1 — line 66 passes
no ratio arguments — write the three `*_list.txt` files (lines 68-70)
and return `base_dir` (line 78).  The input-directory listing fed to
`split_images` is the list of copied names; directory creation and the
COLMAP stages are modelled separately. -/
def create_colmap_structure_model (output_dir : String)
    (source_entries : List String) (seed : Nat) : CCSResult :=
  let copied := collect_images source_entries
  let splits := split_images seed copied (8/10) (1/10)
  ⟨copied, splits,
   [("train_list.txt", splits.train), ("val_list.txt", splits.val),
    ("test_list.txt", splits.test)],
   output_dir⟩

/-- A ten-image source directory used as concrete input. -/
def ten_images : List String :=
  ["a0.jpg", "a1.jpg", "a2.jpg", "a3.jpg", "a4.jpg",
   "a5.jpg", "a6.jpg", "a7.jpg", "a8.jpg", "a9.jpg"]

/-- `main` of `prepare_data.py` lines 125-170 in photo mode: the
parsed `--train_ratio` and `--val_ratio` values are accepted (lines
131-132), the generator is seeded with 42 (line 155), and
`create_colmap_structure` is called without the ratio arguments
(lines 164-170), so the parsed ratios never reach `split_images`. -/
def main_model (train_ratio val_ratio : ℚ) (output_dir : String)
    (source_entries : List String) : CCSResult :=
  create_colmap_structure_model output_dir source_entries 42

/-- The four COLMAP subcommands invoked by `run_colmap_pipeline`
lines 81-122, in invocation order. -/
inductive Stage where
  | feature_extractor
  | exhaustive_matcher
  | mapper
  | model_converter
deriving DecidableEq

/-- Environment of one pipeline run: the exit status each external
invocation would produce (`some c` = exited with code `c`, `none` =
the process could not be started), and whether `sparse_dir/0` exists
after the mapper stage. -/
structure World where
  exit_code : Stage → Option Nat
  sparse0_exists : Bool

/-- Whether `subprocess.run(cmd, check=True)` returns normally for a
stage: only a started process exiting 0 does; a non-zero exit raises
`CalledProcessError` and an unstartable binary raises
`FileNotFoundError`, both propagating out of `run_colmap_pipeline`. -/
def stage_ok (w : World) (s : Stage) : Bool :=
  w.exit_code s == some 0

/-- `run_colmap_pipeline(image_dir, distorted_dir, database_path,
sparse_dir)` lines 81-122: feature extraction, exhaustive matching and
mapping run in sequence, each guarded by `check=True`; the model
converter runs only when `sparse_dir / "0"` exists (lines 111-120).
Returns the stages invoked, in order, and the failure — the failing
stage with its exit status — if one occurred. -/
def run_colmap_pipeline_model (w : World) :
    List Stage × Option (Stage × Option Nat) :=
  if ¬ stage_ok w .feature_extractor then
    ([.feature_extractor],
     some (.feature_extractor, w.exit_code .feature_extractor))
  else if ¬ stage_ok w .exhaustive_matcher then
    ([.feature_extractor, .exhaustive_matcher],
     some (.exhaustive_matcher, w.exit_code .exhaustive_matcher))
  else if ¬ stage_ok w .mapper then
    ([.feature_extractor, .exhaustive_matcher, .mapper],
     some (.mapper, w.exit_code .mapper))
  else if w.sparse0_exists then
    if ¬ stage_ok w .model_converter then
      ([.feature_extractor, .exhaustive_matcher, .mapper, .model_converter],
       some (.model_converter, w.exit_code .model_converter))
    else
      ([.feature_extractor, .exhaustive_matcher, .mapper, .model_converter],
       none)
  else
    ([.feature_extractor, .exhaustive_matcher, .mapper], none)

/-- Directory state: the set of existing directories (as component
paths) and the unrelated files living under them. -/
structure FS where
  dirs : List (List String)
  files : List (List String × String)
deriving DecidableEq

/-- `Path.mkdir(exist_ok=True)`: create the directory if absent,
leave the state untouched if it already exists; files are never
touched. -/
def mkdir_exist_ok (fs : FS) (p : List String) : FS :=
  if p ∈ fs.dirs then fs else ⟨p :: fs.dirs, fs.files⟩

/-- The directory-skeleton creation of `create_colmap_structure`
lines 41-52: `base_dir` (parents, exist_ok), `input/`, `distorted/`
and `distorted/sparse/`, each with `exist_ok=True`. -/
def create_layout (fs : FS) (out : String) : FS :=
  mkdir_exist_ok
    (mkdir_exist_ok
      (mkdir_exist_ok (mkdir_exist_ok fs [out]) [out, "input"])
      [out, "distorted"])
    [out, "distorted", "sparse"]

/-- Observable events of one `create_colmap_structure` run, in program
order: the image-copy phase, each split-list file write, and each
external pipeline stage invocation. -/
inductive Event where
  | copy_images
  | write_list (name : String)
  | run_stage (s : Stage)
deriving DecidableEq

/-- The event order of `create_colmap_structure` lines 61-75: images
are copied (lines 61-64), the split is computed and the three list
files are written in dict insertion order train, val, test (lines
66-70), and only then — when `run_colmap` is set — the pipeline
stages run (lines 74-75). -/
def create_colmap_structure_trace (w : World) (run_colmap : Bool) :
    List Event :=
  [Event.copy_images, Event.write_list "train", Event.write_list "val",
   Event.write_list "test"] ++
    (if run_colmap then (run_colmap_pipeline_model w).1.map Event.run_stage
     else [])

theorem shuffleFuel_perm {α : Type} :
    ∀ (fuel g : Nat) (l : List α), List.Perm (shuffleFuel fuel g l) l := by
  intro fuel
  induction fuel with
  | zero => intro g l; cases l <;> simp [shuffleFuel]
  | succ n ih =>
    intro g l
    match l with
    | [] => simp [shuffleFuel]
    | x :: xs =>
      rw [shuffleFuel]
      refine List.Perm.trans (List.Perm.cons _ (ih _ _)) ?_
      refine List.Perm.trans List.perm_middle.symm ?_
      rw [List.get_cons_drop, List.take_append_drop]

theorem shuffle_model_perm {α : Type} (seed : Nat) (l : List α) :
    List.Perm (shuffle_model seed l) l :=
  shuffleFuel_perm l.length seed l

theorem shuffle_model_length {α : Type} (seed : Nat) (l : List α) :
    (shuffle_model seed l).length = l.length :=
  (shuffle_model_perm seed l).length_eq

theorem split_parts_append {α : Type} (l : List α) (a k : Nat) :
    l.take a ++ ((l.drop a).take k ++ l.drop (a + k)) = l := by
  have h : l.drop (a + k) = (l.drop a).drop k := by
    rw [List.drop_drop, Nat.add_comm]
  rw [h, List.take_append_drop, List.take_append_drop]

theorem split_images_append (seed : Nat) (entries : List String)
    (r1 r2 : ℚ) :
    (split_images seed entries r1 r2).train ++
      ((split_images seed entries r1 r2).val ++
        (split_images seed entries r1 r2).test) =
      shuffle_model seed (listdir_filter entries) :=
  split_parts_append _ _ _

/-- Claim C1: for every image set (directory listing with distinct
filenames) and every valid pair of split ratios, the partition returned
by `split_images` satisfies `len(train) + len(val) + len(test) == n`,
the three subsets are pairwise disjoint, and their union as a set
equals the original set of image filenames. -/
theorem split_images_partition (seed : Nat) (entries : List String) (r1 r2 : ℚ)
    (hnd : entries.Nodup) (h1 : 0 ≤ r1) (h2 : 0 ≤ r2) (h3 : r1 + r2 ≤ 1) :
    (split_images seed entries r1 r2).train.length +
        (split_images seed entries r1 r2).val.length +
        (split_images seed entries r1 r2).test.length =
      (listdir_filter entries).length ∧
    (split_images seed entries r1 r2).train.Disjoint (split_images seed entries r1 r2).val ∧
    (split_images seed entries r1 r2).train.Disjoint (split_images seed entries r1 r2).test ∧
    (split_images seed entries r1 r2).val.Disjoint (split_images seed entries r1 r2).test ∧
    ∀ x, (x ∈ (split_images seed entries r1 r2).train ∨
            x ∈ (split_images seed entries r1 r2).val ∨
            x ∈ (split_images seed entries r1 r2).test) ↔
          x ∈ listdir_filter entries := by
  have key := split_images_append seed entries r1 r2
  have hperm := shuffle_model_perm seed (listdir_filter entries)
  have hndf : (listdir_filter entries).Nodup := hnd.filter _
  have hnds : (shuffle_model seed (listdir_filter entries)).Nodup :=
    hperm.symm.nodup hndf
  have hcat : ((split_images seed entries r1 r2).train ++
      ((split_images seed entries r1 r2).val ++
        (split_images seed entries r1 r2).test)).Nodup := by
    rw [key]; exact hnds
  have hlen : ((split_images seed entries r1 r2).train ++
      ((split_images seed entries r1 r2).val ++
        (split_images seed entries r1 r2).test)).length =
      (listdir_filter entries).length := by
    rw [key, hperm.length_eq]
  simp only [List.length_append] at hlen
  obtain ⟨hnt, hnvt, hdt⟩ := List.nodup_append.mp hcat
  obtain ⟨hnv, hnte, hdvt⟩ := List.nodup_append.mp hnvt
  refine ⟨by omega, ?_, ?_, hdvt, ?_⟩
  · intro a hat hav
    exact hdt hat (List.mem_append.mpr (Or.inl hav))
  · intro a hat hate
    exact hdt hat (List.mem_append.mpr (Or.inr hate))
  · intro x
    have hx : x ∈ ((split_images seed entries r1 r2).train ++
        ((split_images seed entries r1 r2).val ++
          (split_images seed entries r1 r2).test)) ↔
        x ∈ listdir_filter entries := by
      rw [key]; exact hperm.mem_iff
    simpa [List.mem_append, or_assoc] using hx

theorem split_images_partition_witness :
    (split_images 42 ["a.jpg", "b.jpg", "c.png"] (4/5) (1/10)).train.length +
        (split_images 42 ["a.jpg", "b.jpg", "c.png"] (4/5) (1/10)).val.length +
        (split_images 42 ["a.jpg", "b.jpg", "c.png"] (4/5) (1/10)).test.length =
      (listdir_filter ["a.jpg", "b.jpg", "c.png"]).length :=
  (split_images_partition 42 ["a.jpg", "b.jpg", "c.png"] (4/5) (1/10)
    (by decide) (by norm_num) (by norm_num) (by norm_num)).1

theorem split_default_sizes (seed : Nat) (entries : List String)
    (h10 : (listdir_filter entries).length = 10) :
    (split_images seed entries (8/10) (1/10)).train.length = 8 ∧
    (split_images seed entries (8/10) (1/10)).val.length = 1 ∧
    (split_images seed entries (8/10) (1/10)).test.length = 1 := by
  have hs : (shuffle_model seed (listdir_filter entries)).length = 10 := by
    rw [shuffle_model_length, h10]
  have e1 : ⌊((10 : ℚ)) * (8/10)⌋ = 8 := by
    have h : ((10 : ℚ) * (8/10)) = ((8 : ℤ) : ℚ) := by norm_num
    rw [h, Int.floor_intCast]
  have e2 : ⌊((10 : ℚ)) * (1/10)⌋ = 1 := by
    have h : ((10 : ℚ) * (1/10)) = ((1 : ℤ) : ℚ) := by norm_num
    rw [h, Int.floor_intCast]
  refine ⟨?_, ?_, ?_⟩ <;>
    simp [split_images, shuffle_model_length, h10, hs, e1, e2,
      List.length_take, List.length_drop]

/-- Claim C3: the splitter assigns `images[0:train_end]` to train,
`images[train_end:val_end]` to val and `images[val_end:n]` to test of
the shuffled list, with `train_end = floor(n * train_ratio)` and
`val_end = train_end + floor(n * val_ratio)`, each cut point floored
independently; in particular for `n = 10` with ratios `0.8` and `0.1`
the subset sizes are exactly 8 train, 1 val, 1 test. -/
theorem split_images_cut_points (seed : Nat) (entries : List String) (r1 r2 : ℚ)
    (h1 : 0 ≤ r1) (h2 : 0 ≤ r2) :
    ((split_images seed entries r1 r2).train =
        (shuffle_model seed (listdir_filter entries)).take
          (⌊((listdir_filter entries).length : ℚ) * r1⌋).toNat ∧
      (split_images seed entries r1 r2).val =
        ((shuffle_model seed (listdir_filter entries)).drop
            (⌊((listdir_filter entries).length : ℚ) * r1⌋).toNat).take
          (⌊((listdir_filter entries).length : ℚ) * r2⌋).toNat ∧
      (split_images seed entries r1 r2).test =
        (shuffle_model seed (listdir_filter entries)).drop
          ((⌊((listdir_filter entries).length : ℚ) * r1⌋).toNat +
            (⌊((listdir_filter entries).length : ℚ) * r2⌋).toNat)) ∧
    ((listdir_filter entries).length = 10 →
      (split_images seed entries (8/10) (1/10)).train.length = 8 ∧
      (split_images seed entries (8/10) (1/10)).val.length = 1 ∧
      (split_images seed entries (8/10) (1/10)).test.length = 1) := by
  constructor
  · refine ⟨?_, ?_, ?_⟩ <;>
      simp only [split_images, shuffle_model_length]
  · intro h10
    exact split_default_sizes seed entries h10

theorem split_images_cut_points_witness :
    (split_images 42
        ["a0.jpg", "a1.jpg", "a2.jpg", "a3.jpg", "a4.jpg",
         "a5.jpg", "a6.jpg", "a7.jpg", "a8.jpg", "a9.jpg"]
        (8/10) (1/10)).train.length = 8 :=
  ((split_images_cut_points 42
      ["a0.jpg", "a1.jpg", "a2.jpg", "a3.jpg", "a4.jpg",
       "a5.jpg", "a6.jpg", "a7.jpg", "a8.jpg", "a9.jpg"]
      (8/10) (1/10) (by norm_num) (by norm_num)).2 (by decide)).1

/-- Claim C4: for a fixed seed and a fixed input filename ordering,
two runs of the dataset splitter produce identical partitions
(`split_images` is a pure function of seed, listing and ratios). -/
theorem splitter_deterministic (seed : Nat) (entries : List String)
    (r1 r2 : ℚ) (p1 p2 : SplitResult)
    (hp1 : p1 = split_images seed entries r1 r2)
    (hp2 : p2 = split_images seed entries r1 r2) :
    p1 = p2 :=
  hp1.trans hp2.symm

theorem splitter_deterministic_witness :
    split_images 42 ["a.jpg", "b.jpg"] (4/5) (1/10) =
      split_images 42 ["a.jpg", "b.jpg"] (4/5) (1/10) :=
  splitter_deterministic 42 ["a.jpg", "b.jpg"] (4/5) (1/10) _ _ rfl rfl

/-- Claim C7: the collector copies exactly those direct entries whose
extension, case-insensitively, is `.png`, `.jpg` or `.jpeg`, keeping
each copied file's name; in particular from `a.jpg`, `b.PNG`, `c.txt`,
`d.bmp` it copies exactly `a.jpg` and `b.PNG`. -/
theorem collector_filtering (entries : List String) :
    (∀ e, e ∈ collect_images entries ↔
        e ∈ entries ∧ (path_suffix e).map Char.toLower ∈ image_exts) ∧
    collect_images ["a.jpg", "b.PNG", "c.txt", "d.bmp"] = ["a.jpg", "b.PNG"] := by
  constructor
  · intro e
    simp [collect_images, List.mem_filter]
  · decide

theorem collector_filtering_witness :
    collect_images ["a.jpg", "b.PNG", "c.txt", "d.bmp"] = ["a.jpg", "b.PNG"] :=
  (collector_filtering ["a.jpg", "b.PNG", "c.txt", "d.bmp"]).2

/-- Claim C8 refuted: the image-copy step of
`create_colmap_structure` does not return a `copied_count`; on a
source directory with exactly two matching images the function's
return value is the output directory path, not (the decimal
representation of) the count 2. -/
theorem collect_count_counterexample :
    (create_colmap_structure_model "out" ["a.jpg", "b.PNG", "c.txt", "d.bmp"] 42).copied.length = 2 ∧
    (create_colmap_structure_model "out" ["a.jpg", "b.PNG", "c.txt", "d.bmp"] 42).ret = "out" ∧
    ("out" : String) ≠ "2" :=
  ⟨by decide, rfl, by decide⟩

/-- Claim C8 amended: the inline copy step yields exactly the
extension-matching entries (so the copied count is determined as the
length of that list), but no count is returned; the enclosing function
returns the output base directory. -/
theorem collect_copies_without_count (out : String) (entries : List String)
    (seed : Nat) :
    (create_colmap_structure_model out entries seed).ret = out ∧
    (create_colmap_structure_model out entries seed).copied = collect_images entries :=
  ⟨rfl, rfl⟩

theorem collect_copies_without_count_witness :
    (create_colmap_structure_model "out" ["a.jpg"] 0).ret = "out" ∧
    (create_colmap_structure_model "out" ["a.jpg"] 0).copied = collect_images ["a.jpg"] :=
  collect_copies_without_count "out" ["a.jpg"] 0

/-- Claim C2 fails on the code: the CLI ratio inputs have no effect on
the computed partition — any two ratio pairs give identical results —
and with `--train_ratio 0.5 --val_ratio 0.1` on a ten-image directory
the train subset still has 8 elements, although
`floor(10 * 0.5) = 5`. -/
theorem cli_ratios_ignored :
    (∀ (r1 r2 s1 s2 : ℚ) (out : String) (entries : List String),
        main_model r1 r2 out entries = main_model s1 s2 out entries) ∧
    (main_model (1/2) (1/10) "out" ten_images).splits.train.length = 8 ∧
    (⌊(10 : ℚ) * (1/2)⌋).toNat = 5 := by
  refine ⟨fun _ _ _ _ _ _ => rfl, ?_, ?_⟩
  · exact (split_default_sizes 42 (collect_images ten_images) (by decide)).1
  · have h : ((10 : ℚ) * (1/2)) = ((5 : ℤ) : ℚ) := by norm_num
    rw [h, Int.floor_intCast]
    rfl

/-- Claim C5: if feature extraction fails (non-zero exit or not
startable), then matching, mapping and conversion are not invoked and
the run fails with an error naming the feature-extraction stage and
its exit status. -/
theorem pipeline_short_circuit (w : World)
    (h : w.exit_code Stage.feature_extractor ≠ some 0) :
    run_colmap_pipeline_model w =
      ([Stage.feature_extractor],
       some (Stage.feature_extractor, w.exit_code Stage.feature_extractor)) ∧
    Stage.exhaustive_matcher ∉ (run_colmap_pipeline_model w).1 ∧
    Stage.mapper ∉ (run_colmap_pipeline_model w).1 ∧
    Stage.model_converter ∉ (run_colmap_pipeline_model w).1 := by
  have hb : stage_ok w Stage.feature_extractor = false := by
    simp [stage_ok, h]
  refine ⟨?_, ?_, ?_, ?_⟩ <;> simp [run_colmap_pipeline_model, hb]

theorem pipeline_short_circuit_witness :
    run_colmap_pipeline_model ⟨fun _ => some 1, true⟩ =
      ([Stage.feature_extractor], some (Stage.feature_extractor, some 1)) :=
  (pipeline_short_circuit ⟨fun _ => some 1, true⟩ (by decide)).1

/-- Claim C6: if the first three stages succeed but `sparse_dir/0`
does not exist, the model converter is not invoked and the run
completes without an error. -/
theorem pipeline_conditional_conversion (w : World)
    (h1 : w.exit_code Stage.feature_extractor = some 0)
    (h2 : w.exit_code Stage.exhaustive_matcher = some 0)
    (h3 : w.exit_code Stage.mapper = some 0)
    (h4 : w.sparse0_exists = false) :
    run_colmap_pipeline_model w =
      ([Stage.feature_extractor, Stage.exhaustive_matcher, Stage.mapper],
       none) ∧
    Stage.model_converter ∉ (run_colmap_pipeline_model w).1 ∧
    (run_colmap_pipeline_model w).2 = none := by
  refine ⟨?_, ?_, ?_⟩ <;>
    simp [run_colmap_pipeline_model, stage_ok, h1, h2, h3, h4]

theorem pipeline_conditional_conversion_witness :
    run_colmap_pipeline_model ⟨fun _ => some 0, false⟩ =
      ([Stage.feature_extractor, Stage.exhaustive_matcher, Stage.mapper],
       none) :=
  (pipeline_conditional_conversion ⟨fun _ => some 0, false⟩
    rfl rfl rfl rfl).1

theorem mkdir_mem_self (fs : FS) (p : List String) :
    p ∈ (mkdir_exist_ok fs p).dirs := by
  unfold mkdir_exist_ok
  split
  · assumption
  · exact List.mem_cons_self _ _

theorem mkdir_mem_mono (fs : FS) (p q : List String) (h : q ∈ fs.dirs) :
    q ∈ (mkdir_exist_ok fs p).dirs := by
  unfold mkdir_exist_ok
  split
  · exact h
  · exact List.mem_cons_of_mem _ h

theorem mkdir_of_mem (fs : FS) (p : List String) (h : p ∈ fs.dirs) :
    mkdir_exist_ok fs p = fs := by
  simp [mkdir_exist_ok, h]

theorem mkdir_files (fs : FS) (p : List String) :
    (mkdir_exist_ok fs p).files = fs.files := by
  unfold mkdir_exist_ok
  split <;> rfl

/-- Claim C9: running the layout builder a second time against an
output directory that already has the layout changes nothing — it
does not raise (it is a total function), leaves the directory
structure unchanged, never touches files, and keeps every
pre-existing directory. -/
theorem layout_idempotent (fs : FS) (out : String) :
    create_layout (create_layout fs out) out = create_layout fs out ∧
    (create_layout fs out).files = fs.files ∧
    ∀ d, d ∈ fs.dirs → d ∈ (create_layout fs out).dirs := by
  have h1 : [out] ∈ (create_layout fs out).dirs :=
    mkdir_mem_mono _ _ _ (mkdir_mem_mono _ _ _
      (mkdir_mem_mono _ _ _ (mkdir_mem_self _ _)))
  have h2 : [out, "input"] ∈ (create_layout fs out).dirs :=
    mkdir_mem_mono _ _ _ (mkdir_mem_mono _ _ _ (mkdir_mem_self _ _))
  have h3 : [out, "distorted"] ∈ (create_layout fs out).dirs :=
    mkdir_mem_mono _ _ _ (mkdir_mem_self _ _)
  have h4 : [out, "distorted", "sparse"] ∈ (create_layout fs out).dirs :=
    mkdir_mem_self _ _
  refine ⟨?_, ?_, ?_⟩
  · show mkdir_exist_ok (mkdir_exist_ok (mkdir_exist_ok
        (mkdir_exist_ok (create_layout fs out) [out]) [out, "input"])
        [out, "distorted"]) [out, "distorted", "sparse"] =
      create_layout fs out
    rw [mkdir_of_mem _ _ h1, mkdir_of_mem _ _ h2,
      mkdir_of_mem _ _ h3, mkdir_of_mem _ _ h4]
  · show (mkdir_exist_ok (mkdir_exist_ok (mkdir_exist_ok
        (mkdir_exist_ok fs [out]) [out, "input"])
        [out, "distorted"]) [out, "distorted", "sparse"]).files = fs.files
    rw [mkdir_files, mkdir_files, mkdir_files, mkdir_files]
  · intro d hd
    exact mkdir_mem_mono _ _ _ (mkdir_mem_mono _ _ _
      (mkdir_mem_mono _ _ _ (mkdir_mem_mono _ _ _ hd)))

theorem layout_idempotent_witness :
    create_layout (create_layout ⟨[], [(["keep.txt"], "data")]⟩ "out") "out" =
      create_layout ⟨[], [(["keep.txt"], "data")]⟩ "out" ∧
    (create_layout ⟨[], [(["keep.txt"], "data")]⟩ "out").files =
      [(["keep.txt"], "data")] :=
  ⟨(layout_idempotent ⟨[], [(["keep.txt"], "data")]⟩ "out").1,
   (layout_idempotent ⟨[], [(["keep.txt"], "data")]⟩ "out").2.1⟩

/-- Claim C10: every split-list write precedes every reconstruction
stage invocation in the run's event order, so whenever a stage fails
the three lists are already persisted with their final contents. -/
theorem lists_before_pipeline (w : World) (rc : Bool) (i j : Nat)
    (nm : String) (s : Stage)
    (hi : (create_colmap_structure_trace w rc)[i]? = some (Event.write_list nm))
    (hj : (create_colmap_structure_trace w rc)[j]? = some (Event.run_stage s)) :
    i < j := by
  have hi4 : i < 4 := by
    by_contra hge
    push_neg at hge
    rw [create_colmap_structure_trace,
      List.getElem?_append_right (by simpa using hge)] at hi
    rcases rc with _ | _
    · simp at hi
    · simp only [if_pos rfl] at hi
      have hm := List.getElem?_mem hi
      simp [List.mem_map] at hm
  have hj4 : 4 ≤ j := by
    by_contra hlt
    push_neg at hlt
    rw [create_colmap_structure_trace,
      List.getElem?_append_left (by simpa using hlt)] at hj
    interval_cases j <;> simp at hj
  omega

theorem lists_before_pipeline_witness :
    (create_colmap_structure_trace ⟨fun _ => some 0, true⟩ true)[1]? =
        some (Event.write_list "train") ∧
    (create_colmap_structure_trace ⟨fun _ => some 0, true⟩ true)[4]? =
        some (Event.run_stage Stage.feature_extractor) ∧
    1 < 4 :=
  ⟨by decide, by decide,
   lists_before_pipeline ⟨fun _ => some 0, true⟩ true 1 4 "train"
     Stage.feature_extractor (by decide) (by decide)⟩
